import Mathlib

/-!
# Verification of the Oraculus web client's navigation and input-resolution core

Shallow embedding of the swipe/choice resolution and card-stack navigation
state machine of the `oraculus-web` repository:

* `StoryCard.handleDragEnd` (gesture classification and swipe resolution),
* `CardStack.handleKeyPress` (keyboard resolution) and `visibleNodes` (lookahead),
* `GameEngine.handleChoiceSelected` (`applyChoice`), `resetGame`,
  `handleCharacterCreated` and `createMockStoryNodes`.

JavaScript numbers appearing only in comparisons are modelled as `Int`
(gesture offsets/velocities) or `Nat` (ages, choice ids, indices); JS array
indexing `a[i]` is modelled with `List.get?`, `Array.prototype.find` with
`List.find?`, `Array.prototype.filter` with `List.filter`, and
`Array.prototype.slice(i, i+3)` with `(List.drop i) ∘ (List.take 3)`.
React `setX(prev => ...)` functional updates are composed sequentially into a
single pure state transition; closure variables captured by the handler keep
their pre-update values, exactly as in the source.
-/

/-- Interface `Protagonist` from `types/index.ts`. -/
structure Protagonist where
  name : String
  gender : String
  age : Nat
  startingSituation : String
  deriving Repr, DecidableEq

/-- Interface `StoryChoice` from `types/index.ts`. -/
structure StoryChoice where
  id : Nat
  text : String
  isAvailable : Bool
  deriving Repr, DecidableEq

/-- Interface `StoryNode` from `types/index.ts`. -/
structure StoryNode where
  id : String
  text : String
  choices : List StoryChoice
  isEndNode : Bool
  deriving Repr, DecidableEq

/-- Interface `GameState` from `types/index.ts`. -/
structure GameState where
  protagonist : Option Protagonist
  currentNode : Option StoryNode
  gameHistory : List String
  isGameStarted : Bool
  isLoading : Bool
  deriving Repr, DecidableEq

/-- The full state held by the `GameEngine` component: the `gameState`
`useState` hook plus the `storyNodes` and `currentNodeIndex` hooks. -/
structure EngineState where
  gameState : GameState
  storyNodes : List StoryNode
  currentNodeIndex : Nat
  deriving Repr, DecidableEq

/-- The two horizontal swipe directions of `StoryCard.onSwipe`. -/
inductive SwipeDir where
  | left
  | right
  deriving Repr, DecidableEq

/-- The available choices of a node: `node.choices.filter(choice => choice.isAvailable)`,
as computed in both `StoryCard` and `CardStack`. -/
def availableChoices (n : StoryNode) : List StoryChoice :=
  n.choices.filter (fun c => c.isAvailable)

/-- The gesture classification of `StoryCard.handleDragEnd`: with
`threshold = 100`, the guard is
`Math.abs(offset.x) > threshold || Math.abs(velocity.x) > 500`, and inside it
the direction is decided by `offset.x > 0`; a gesture failing the guard is
discarded. -/
def classifySwipe (offsetX velocityX : Int) : Option SwipeDir :=
  if 100 < |offsetX| ∨ 500 < |velocityX| then
    if 0 < offsetX then some SwipeDir.right else some SwipeDir.left
  else
    none

/-- The choice-id resolution of `StoryCard.handleDragEnd`: a right swipe emits
`node.choices.find(choice => choice.isAvailable).id` when the find succeeds; a
left swipe filters the available choices and emits the second one when there
are more than one, the single one when there is exactly one, and nothing
otherwise. Returns the choice id passed to `onSwipe`, or `none` when no event
is emitted. -/
def handleDragEnd (n : StoryNode) (offsetX velocityX : Int) : Option Nat :=
  match classifySwipe offsetX velocityX with
  | some SwipeDir.right =>
      (n.choices.find? (fun c => c.isAvailable)).map (fun c => c.id)
  | some SwipeDir.left =>
      match availableChoices n with
      | _ :: c :: _ => some c.id
      | [c] => some c.id
      | [] => none
  | none => none

/-- Written from the specification text, for comparison with `classifySwipe`:
classify as right if displacement exceeds 100 or velocity exceeds 500 in the
positive direction, as left under the mirrored negative-direction condition,
otherwise discard. -/
def specClassifySwipe (offsetX velocityX : Int) : Option SwipeDir :=
  if 100 < offsetX ∨ 500 < velocityX then some SwipeDir.right
  else if offsetX < -100 ∨ velocityX < -500 then some SwipeDir.left
  else none

/-- The keyboard resolution of `CardStack.handleKeyPress`: with
`currentNode = nodes[activeCardIndex]`, the handler returns early when the
node is missing or terminal, then switches on `event.key`: `ArrowLeft` picks
the second available choice falling back to a single one, `ArrowRight` picks
the first available choice, digit keys `1`, `2`, `3` pick
`availableChoices[parseInt(key) - 1]` when present, and every other key does
nothing. Returns the choice id passed to `onChoiceSelected`, or `none`. -/
def handleKeyPress (nodes : List StoryNode) (activeCardIndex : Nat)
    (key : String) : Option Nat :=
  match nodes.get? activeCardIndex with
  | none => none
  | some currentNode =>
      if currentNode.isEndNode then none
      else
        let avail := availableChoices currentNode
        if key = "ArrowLeft" then
          match avail with
          | _ :: c :: _ => some c.id
          | [c] => some c.id
          | [] => none
        else if key = "ArrowRight" then
          match avail with
          | c :: _ => some c.id
          | [] => none
        else if key = "1" then (avail.get? 0).map (fun c => c.id)
        else if key = "2" then (avail.get? 1).map (fun c => c.id)
        else if key = "3" then (avail.get? 2).map (fun c => c.id)
        else none

/-- Lookahead `CardStack.visibleNodes`: `nodes.slice(activeCardIndex, activeCardIndex + 3)`. -/
def visibleNodes (nodes : List StoryNode) (activeCardIndex : Nat) :
    List StoryNode :=
  (nodes.drop activeCardIndex).take 3

/-- Mock generator `GameEngine.createMockStoryNodes`: the four mock nodes generated from the
protagonist. The `ageRange` ternary chain is
`age <= 25 ? 'young' : age <= 40 ? 'adult' : 'elder'`. -/
def createMockStoryNodes (p : Protagonist) : List StoryNode :=
  let ageRange : String :=
    if p.age ≤ 25 then "young" else if p.age ≤ 40 then "adult" else "elder"
  [ { id := "root"
    , text := "You are " ++ p.name ++ ", a " ++ ageRange ++ " " ++ p.gender
        ++ ". " ++ p.startingSituation
        ++ " You find yourself at a crossroads, literally and metaphorically. The sun is setting, casting long shadows across the path ahead. What do you choose to do?"
    , choices :=
        [ { id := 1, text := "Take the well-traveled road to the nearby village", isAvailable := true }
        , { id := 2, text := "Venture into the mysterious forest path", isAvailable := true }
        , { id := 3, text := "Set up camp here and wait for morning", isAvailable := true } ]
    , isEndNode := false }
  , { id := "village_path"
    , text := "The village road is safe but mundane. As you walk, you encounter a traveling merchant whose cart has broken down. They offer valuable information in exchange for help."
    , choices :=
        [ { id := 4, text := "Help the merchant fix their cart", isAvailable := true }
        , { id := 5, text := "Listen to their stories but continue on", isAvailable := true } ]
    , isEndNode := false }
  , { id := "forest_path"
    , text := "The forest whispers secrets in the wind. Ancient trees tower above you, and you hear the sound of flowing water nearby. A glimmer of light catches your eye deeper in the woods."
    , choices :=
        [ { id := 6, text := "Follow the mysterious light", isAvailable := true }
        , { id := 7, text := "Head toward the sound of water", isAvailable := true } ]
    , isEndNode := false }
  , { id := "camp_here"
    , text := "The night brings unexpected visitors. A group of fellow travelers approaches your campfire, seeking warmth and companionship. They share tales of their journeys."
    , choices :=
        [ { id := 8, text := "Invite them to share your fire", isAvailable := true }
        , { id := 9, text := "Keep to yourself but remain polite", isAvailable := true } ]
    , isEndNode := false } ]

/-- The initial value of the `gameState` `useState` hook in `GameEngine`. -/
def initialGameState : GameState :=
  { protagonist := none
  , currentNode := none
  , gameHistory := []
  , isGameStarted := false
  , isLoading := false }

/-- The initial `EngineState`: `gameState` as above, `storyNodes = []`,
`currentNodeIndex = 0`. -/
def initialEngineState : EngineState :=
  { gameState := initialGameState
  , storyNodes := []
  , currentNodeIndex := 0 }

/-- Handler `GameEngine.handleCharacterCreated`, started from the initial state (the
only state in which the character-creation screen is shown): builds the mock
nodes and sets `protagonist`, `currentNode := nodes[0]` and
`isGameStarted := true`. -/
def startGame (p : Protagonist) : EngineState :=
  let nodes := createMockStoryNodes p
  { gameState :=
      { initialGameState with
          protagonist := some p
        , currentNode := nodes.get? 0
        , isGameStarted := true }
  , storyNodes := nodes
  , currentNodeIndex := 0 }

/-- The terminal node synthesized by `GameEngine.handleChoiceSelected` for a
choice taken on a non-root node: id `end_${choiceId}`, no choices, end flag
set; its text interpolates `gameState.protagonist?.name` (the string
`"undefined"` when the protagonist is absent, as in JS). -/
def mkEndNode (protagonist : Option Protagonist) (choiceId : Nat) : StoryNode :=
  { id := "end_" ++ toString choiceId
  , text := "Your choice leads to new adventures. This is where your story continues to evolve based on your decisions. The journey of "
      ++ (match protagonist with | some p => p.name | none => "undefined")
      ++ " is just beginning..."
  , choices := []
  , isEndNode := true }

/-- Handler `GameEngine.handleChoiceSelected` as a pure state transition
(`applyChoice`). The handler returns early (state unchanged) when
`storyNodes[currentNodeIndex]` is `undefined` or when no choice of the current
node has the given id. Otherwise it appends the `text → text` entry to the
history, computes `nextNodeIndex` (the root node routes choice ids 1, 2, 3 to
indices 1, 2, 3 and leaves the index unchanged otherwise; every other node
appends a fresh end node and targets `storyNodes.length`), and finally sets
`gameState.currentNode` to `storyNodes[nextNodeIndex]` — read from the
closure-captured `storyNodes`, which on the append path is the array *before*
the append, exactly as in the source. -/
def applyChoice (s : EngineState) (choiceId : Nat) : EngineState :=
  match s.storyNodes.get? s.currentNodeIndex with
  | none => s
  | some currentNode =>
      match currentNode.choices.find? (fun c => c.id = choiceId) with
      | none => s
      | some selectedChoice =>
          let history := s.gameState.gameHistory
            ++ [currentNode.text ++ " → " ++ selectedChoice.text]
          if currentNode.id = "root" then
            let nextNodeIndex : Nat :=
              if choiceId = 1 then 1
              else if choiceId = 2 then 2
              else if choiceId = 3 then 3
              else s.currentNodeIndex
            { s with
                gameState :=
                  { s.gameState with
                      gameHistory := history
                    , currentNode := s.storyNodes.get? nextNodeIndex }
              , currentNodeIndex := nextNodeIndex }
          else
            let endNode := mkEndNode s.gameState.protagonist choiceId
            let nextNodeIndex := s.storyNodes.length
            { s with
                storyNodes := s.storyNodes ++ [endNode]
              , currentNodeIndex := nextNodeIndex
              , gameState :=
                  { s.gameState with
                      gameHistory := history
                    , currentNode := s.storyNodes.get? nextNodeIndex } }

/-- Iterated `applyChoice` folded over a list of choice ids, in order. -/
def applyChoices (s : EngineState) : List Nat → EngineState
  | [] => s
  | c :: cs => applyChoices (applyChoice s c) cs

/-- A choice id is valid in a state when the current node exists and carries a
choice with that id — exactly the condition under which
`handleChoiceSelected` passes its two early-return guards. -/
def validChoice (s : EngineState) (choiceId : Nat) : Bool :=
  match s.storyNodes.get? s.currentNodeIndex with
  | none => false
  | some currentNode =>
      (currentNode.choices.find? (fun c => c.id = choiceId)).isSome

/-- Every choice of the list is valid at the state where it is applied. -/
def allValid (s : EngineState) : List Nat → Bool
  | [] => true
  | c :: cs => validChoice s c && allValid (applyChoice s c) cs

/-- Handler `GameEngine.resetGame`: sets `gameState`, `storyNodes` and
`currentNodeIndex` back to their initial values, whatever the current state. -/
def resetGame (_ : EngineState) : EngineState :=
  initialEngineState

/-- The error taxonomy of the specification relevant to `applyChoice`. -/
inductive ChoiceError where
  | invalidChoice
  deriving Repr, DecidableEq

/-- Handler `handleChoiceSelected` viewed in an error monad: the source function never
throws and never signals — each early return yields the unchanged state — so
its lifting always returns `Except.ok`. -/
def applyChoiceE (s : EngineState) (choiceId : Nat) :
    Except ChoiceError EngineState :=
  Except.ok (applyChoice s choiceId)

/-- Written from the specification text, for comparison with `applyChoiceE`:
a choice id not present on the current node at apply time is signaled
synchronously as `InvalidChoice` with no state mutation; a valid id is
applied. -/
def specApplyChoiceE (s : EngineState) (choiceId : Nat) :
    Except ChoiceError EngineState :=
  if validChoice s choiceId then Except.ok (applyChoice s choiceId)
  else Except.error ChoiceError.invalidChoice

/-- A concrete protagonist used for witnesses. -/
def demoProtagonist : Protagonist :=
  { name := "Ana", gender := "woman", age := 30, startingSituation := "Lost." }

/-- A node with four available choices, used to exercise the digit keys. -/
def fourChoiceNode : StoryNode :=
  { id := "four"
  , text := "A node with four available choices."
  , choices :=
      [ { id := 1, text := "a", isAvailable := true }
      , { id := 2, text := "b", isAvailable := true }
      , { id := 3, text := "c", isAvailable := true }
      , { id := 4, text := "d", isAvailable := true } ]
  , isEndNode := false }

/-- A non-terminal node with an empty choice list, the degenerate case of the
input-resolution contract. -/
def noChoiceNode : StoryNode :=
  { id := "empty", text := "No options here.", choices := [], isEndNode := false }

/-- States reachable in a session: the state right after character creation,
closed under `handleChoiceSelected` with arbitrary choice ids. -/
inductive Reachable : EngineState → Prop where
  | start (p : Protagonist) : Reachable (startGame p)
  | step (s : EngineState) (c : Nat) : Reachable s → Reachable (applyChoice s c)

/-- The session invariant used to settle the index claims: the node sequence
keeps at least the four mock nodes, the current index is in range, and the
node with id `root` can only sit at position 0, with choice ids among
`1, 2, 3`. -/
def SessionInv (s : EngineState) : Prop :=
  4 ≤ s.storyNodes.length ∧
  s.currentNodeIndex < s.storyNodes.length ∧
  ∀ i n, s.storyNodes.get? i = some n → n.id = "root" →
    i = 0 ∧ ∀ c ∈ n.choices, c.id = 1 ∨ c.id = 2 ∨ c.id = 3

/-- Lemma: `find?` returns the head of the filtered list: the right-swipe lookup of
`StoryCard.handleDragEnd` selects the first available choice in node order. -/
theorem find?_eq_head?_filter (p : StoryChoice → Bool) (l : List StoryChoice) :
    l.find? p = (l.filter p).head? := by
  induction l with
  | nil => rfl
  | cons a t ih =>
      cases h : p a with
      | true =>
          rw [List.find?_cons_of_pos _ h, List.filter_cons, h]
          rfl
      | false =>
          rw [List.find?_cons_of_neg _ (by simp [h]), List.filter_cons, h]
          exact ih

/-- The id of a synthesized end node is never `root`. -/
theorem end_ne_root (n : Nat) : ("end_" ++ toString n) ≠ "root" := by
  intro h
  have h2 : ("end_" ++ toString n).data = "root".data := congrArg String.data h
  rw [String.data_append] at h2
  have h3 : "end_".data = ['e', 'n', 'd', '_'] := rfl
  rw [h3] at h2
  simp at h2

/-- An invalid choice id leaves the state untouched: both early returns of
`handleChoiceSelected` fall through without running any `setX`. -/
theorem applyChoice_not_valid (s : EngineState) (c : Nat)
    (h : validChoice s c = false) : applyChoice s c = s := by
  unfold validChoice at h
  unfold applyChoice
  split
  · rfl
  · next cn hm =>
      rw [hm] at h
      split
      · rfl
      · next sc hf =>
          change (cn.choices.find? (fun ch => ch.id = c)).isSome = false at h
          rw [hf] at h
          simp at h

/-- Shape of a valid `applyChoice` step: one history entry is appended, the
protagonist is untouched, and either the current node is the root (nodes
unchanged, index routed through the choice id) or an end node is appended
(index set to the old length, `currentNode` read from the old array). -/
theorem applyChoice_valid_cases (s : EngineState) (c : Nat)
    (h : validChoice s c = true) :
    ∃ cn sc, s.storyNodes.get? s.currentNodeIndex = some cn ∧
      cn.choices.find? (fun ch => ch.id = c) = some sc ∧
      (applyChoice s c).gameState.gameHistory
        = s.gameState.gameHistory ++ [cn.text ++ " → " ++ sc.text] ∧
      (applyChoice s c).gameState.protagonist = s.gameState.protagonist ∧
      ((cn.id = "root" ∧
          (applyChoice s c).storyNodes = s.storyNodes ∧
          (applyChoice s c).currentNodeIndex =
            (if c = 1 then 1 else if c = 2 then 2 else if c = 3 then 3
             else s.currentNodeIndex) ∧
          (applyChoice s c).gameState.currentNode
            = s.storyNodes.get? (applyChoice s c).currentNodeIndex) ∨
       (cn.id ≠ "root" ∧
          (applyChoice s c).storyNodes
            = s.storyNodes ++ [mkEndNode s.gameState.protagonist c] ∧
          (applyChoice s c).currentNodeIndex = s.storyNodes.length ∧
          (applyChoice s c).gameState.currentNode
            = s.storyNodes.get? s.storyNodes.length)) := by
  unfold validChoice at h
  cases hm : s.storyNodes.get? s.currentNodeIndex with
  | none => rw [hm] at h; simp at h
  | some cn =>
      rw [hm] at h
      change (cn.choices.find? (fun ch => ch.id = c)).isSome = true at h
      cases hf : cn.choices.find? (fun ch => ch.id = c) with
      | none => rw [hf] at h; simp at h
      | some sc =>
          refine ⟨cn, sc, rfl, hf, ?_⟩
          by_cases hroot : cn.id = "root"
          · simp only [applyChoice, hm, hf, hroot, if_pos rfl]
            simp [hroot]
          · simp only [applyChoice, hm, hf, if_neg hroot]
            simp [hroot]

/-- Every `handleChoiceSelected` call leaves the previous node sequence as a
prefix: the only write is `setStoryNodes(prev => [...prev, endNode])`. -/
theorem applyChoice_nodes_append (s : EngineState) (c : Nat) :
    ∃ t, (applyChoice s c).storyNodes = s.storyNodes ++ t := by
  cases hv : validChoice s c with
  | false => exact ⟨[], by rw [applyChoice_not_valid s c hv, List.append_nil]⟩
  | true =>
      obtain ⟨cn, sc, hm, hf, hhist, hprot, hcase⟩ :=
        applyChoice_valid_cases s c hv
      rcases hcase with ⟨_, hnodes, _, _⟩ | ⟨_, hnodes, _, _⟩
      · exact ⟨[], by rw [hnodes, List.append_nil]⟩
      · exact ⟨[mkEndNode s.gameState.protagonist c], hnodes⟩

/-- Every `handleChoiceSelected` call leaves the previous history as a
prefix: the only write is an append. -/
theorem applyChoice_hist_append (s : EngineState) (c : Nat) :
    ∃ t, (applyChoice s c).gameState.gameHistory
      = s.gameState.gameHistory ++ t := by
  cases hv : validChoice s c with
  | false => exact ⟨[], by rw [applyChoice_not_valid s c hv, List.append_nil]⟩
  | true =>
      obtain ⟨cn, sc, hm, hf, hhist, hprot, hcase⟩ :=
        applyChoice_valid_cases s c hv
      exact ⟨[cn.text ++ " → " ++ sc.text], hhist⟩

/-- A valid `handleChoiceSelected` call appends exactly one history entry. -/
theorem applyChoice_hist_len_valid (s : EngineState) (c : Nat)
    (h : validChoice s c = true) :
    (applyChoice s c).gameState.gameHistory.length
      = s.gameState.gameHistory.length + 1 := by
  obtain ⟨cn, sc, hm, hf, hhist, hprot, hcase⟩ := applyChoice_valid_cases s c h
  rw [hhist, List.length_append]
  rfl

/-- The session invariant holds right after character creation. -/
theorem sessionInv_start (p : Protagonist) : SessionInv (startGame p) := by
  refine ⟨Nat.le_refl 4, Nat.succ_pos 3, ?_⟩
  intro i n hget hroot
  match i with
  | 0 =>
      simp only [startGame, createMockStoryNodes, List.get?] at hget
      cases hget
      refine ⟨rfl, ?_⟩
      intro c hc
      fin_cases hc <;> decide
  | 1 =>
      simp only [startGame, createMockStoryNodes, List.get?] at hget
      cases hget
      exact absurd hroot (by decide)
  | 2 =>
      simp only [startGame, createMockStoryNodes, List.get?] at hget
      cases hget
      exact absurd hroot (by decide)
  | 3 =>
      simp only [startGame, createMockStoryNodes, List.get?] at hget
      cases hget
      exact absurd hroot (by decide)
  | (m + 4) =>
      simp only [startGame, createMockStoryNodes, List.get?] at hget
      exact Option.noConfusion hget

/-- The session invariant is preserved by `handleChoiceSelected`, whatever the
choice id. -/
theorem sessionInv_step (s : EngineState) (c : Nat) (hs : SessionInv s) :
    SessionInv (applyChoice s c) := by
  obtain ⟨hlen, hidx, hroot⟩ := hs
  cases hv : validChoice s c with
  | false =>
      rw [applyChoice_not_valid s c hv]
      exact ⟨hlen, hidx, hroot⟩
  | true =>
      obtain ⟨cn, sc, hm, hf, hhist, hprot, hcase⟩ :=
        applyChoice_valid_cases s c hv
      rcases hcase with ⟨hid, hnodes, hidx', hcur⟩ | ⟨hid, hnodes, hidx', hcur⟩
      · obtain ⟨hi0, hcs⟩ := hroot s.currentNodeIndex cn hm hid
        have hsc := List.find?_some hf
        have hsc_id : sc.id = c := of_decide_eq_true hsc
        have hc3 : c = 1 ∨ c = 2 ∨ c = 3 := by
          have := hcs sc (List.mem_of_find?_eq_some hf)
          omega
        refine ⟨by rw [hnodes]; exact hlen, ?_, ?_⟩
        · rw [hidx', hnodes]
          rcases hc3 with rfl | rfl | rfl <;> simp <;> omega
        · intro i n hget hr
          rw [hnodes] at hget
          exact hroot i n hget hr
      · refine ⟨?_, ?_, ?_⟩
        · rw [hnodes, List.length_append]
          exact Nat.le_add_right_of_le hlen
        · rw [hidx', hnodes, List.length_append]
          simp
        · intro i n hget hr
          rw [hnodes] at hget
          by_cases hi : i < s.storyNodes.length
          · rw [List.get?_append hi] at hget
            exact hroot i n hget hr
          · push_neg at hi
            rw [List.get?_append_right hi] at hget
            exfalso
            rcases hd : i - s.storyNodes.length with _ | k
            · rw [hd] at hget
              simp only [List.get?] at hget
              cases hget
              exact end_ne_root c hr
            · rw [hd] at hget
              simp only [List.get?] at hget
              exact Option.noConfusion hget

/-- Every reachable state satisfies the session invariant. -/
theorem reachable_sessionInv (s : EngineState) (h : Reachable s) :
    SessionInv s := by
  induction h with
  | start p => exact sessionInv_start p
  | step s c _ ih => exact sessionInv_step s c ih

/-- C1 counterexample: at offset 50 and velocity −600 the code classifies the
gesture as a right swipe — the guard passes on |velocity| and the direction is
taken from the sign of the offset alone — while the specification's rule
(velocity exceeding 500 in the *negative* direction) classifies it as left. -/
theorem C1_classification_counterexample :
    classifySwipe 50 (-600) = some SwipeDir.right ∧
    specClassifySwipe 50 (-600) = some SwipeDir.left := by
  decide

/-- C1 (amended): a drag release is classified as right exactly when the
magnitude guard `|offset| > 100 ∨ |velocity| > 500` passes and the offset is
positive, as left exactly when the guard passes and the offset is not
positive, and a discarded gesture emits no choice event. -/
theorem C1_swipe_classification :
    ∀ offsetX velocityX : Int,
      (classifySwipe offsetX velocityX = some SwipeDir.right ↔
        (100 < |offsetX| ∨ 500 < |velocityX|) ∧ 0 < offsetX) ∧
      (classifySwipe offsetX velocityX = some SwipeDir.left ↔
        (100 < |offsetX| ∨ 500 < |velocityX|) ∧ ¬ 0 < offsetX) ∧
      (∀ n : StoryNode, classifySwipe offsetX velocityX = none →
        handleDragEnd n offsetX velocityX = none) := by
  intro o v
  refine ⟨?_, ?_, ?_⟩
  · unfold classifySwipe
    by_cases hg : 100 < |o| ∨ 500 < |v|
    · by_cases hs : 0 < o <;> simp [hg, hs]
    · simp [hg]
  · unfold classifySwipe
    by_cases hg : 100 < |o| ∨ 500 < |v|
    · by_cases hs : 0 < o <;> simp [hg, hs]
    · simp [hg]
  · intro n h
    simp [handleDragEnd, h]

/-- C1 witness: a release at offset 150 with no velocity is a right swipe. -/
theorem C1_swipe_classification_witness :
    classifySwipe 150 0 = some SwipeDir.right :=
  ((C1_swipe_classification 150 0).1).mpr (by decide)

/-- C2: a right swipe — and the right-direction key on a non-terminal node —
resolves to the first available choice in node order; a left swipe and the
left-direction key resolve to the second available choice when at least two
are available and otherwise to the first; with exactly one available choice
both swipe directions resolve to it. -/
theorem C2_direction_choice_mapping :
    ∀ (n : StoryNode) (offsetX velocityX : Int) (nodes : List StoryNode)
      (i : Nat),
      (classifySwipe offsetX velocityX = some SwipeDir.right →
        handleDragEnd n offsetX velocityX
          = ((availableChoices n).get? 0).map (fun c => c.id)) ∧
      (classifySwipe offsetX velocityX = some SwipeDir.left →
        handleDragEnd n offsetX velocityX
          = (if 2 ≤ (availableChoices n).length
             then ((availableChoices n).get? 1).map (fun c => c.id)
             else ((availableChoices n).get? 0).map (fun c => c.id))) ∧
      (nodes.get? i = some n → n.isEndNode = false →
        handleKeyPress nodes i "ArrowRight"
          = ((availableChoices n).get? 0).map (fun c => c.id) ∧
        handleKeyPress nodes i "ArrowLeft"
          = (if 2 ≤ (availableChoices n).length
             then ((availableChoices n).get? 1).map (fun c => c.id)
             else ((availableChoices n).get? 0).map (fun c => c.id))) ∧
      ((availableChoices n).length = 1 →
        ∀ d, classifySwipe offsetX velocityX = some d →
          handleDragEnd n offsetX velocityX
            = ((availableChoices n).get? 0).map (fun c => c.id)) := by
  intro n o v nodes i
  refine ⟨?_, ?_, ?_, ?_⟩
  · intro hc
    simp only [handleDragEnd, hc]
    rw [find?_eq_head?_filter, List.get?_zero]
    rfl
  · intro hc
    rcases hav : availableChoices n with _ | ⟨a, _ | ⟨b, t⟩⟩ <;>
      simp [handleDragEnd, hc, hav]
  · intro hget hend
    constructor
    · simp only [handleKeyPress, hget, hend]
      rcases hav : availableChoices n with _ | ⟨a, _ | ⟨b, t⟩⟩ <;> simp [hav]
    · simp only [handleKeyPress, hget, hend]
      rcases hav : availableChoices n with _ | ⟨a, _ | ⟨b, t⟩⟩ <;> simp [hav]
  · intro h1 d hc
    rcases hav : availableChoices n with _ | ⟨a, _ | ⟨b, t⟩⟩
    · rw [hav] at h1; simp at h1
    · cases d
      · simp [handleDragEnd, hc, hav]
      · simp only [handleDragEnd, hc]
        rw [find?_eq_head?_filter]
        show (Option.map _ (availableChoices n).head?) = _
        rw [hav]
        simp
    · rw [hav] at h1; simp at h1

/-- C2 witness: on the four-choice demo node, a hard right swipe resolves to
choice 1, the first available. -/
theorem C2_direction_choice_mapping_witness :
    handleDragEnd fourChoiceNode 150 0 = some 1 :=
  ((C2_direction_choice_mapping fourChoiceNode 150 0 [fourChoiceNode] 0).1
    (by decide)).trans (by decide)

/-- C3 counterexample: on the fresh game state, the invalid choice id 999 is
*not* signaled — the lifted handler returns `ok` with the unchanged state —
while the specification's rule signals `InvalidChoice`; the code silently
ignores the call instead of surfacing a condition. -/
theorem C3_no_signal_counterexample :
    applyChoiceE (startGame demoProtagonist) 999
      = Except.ok (startGame demoProtagonist) ∧
    specApplyChoiceE (startGame demoProtagonist) 999
      = Except.error ChoiceError.invalidChoice := by
  constructor
  · rfl
  · rfl

/-- C3 (amended): for every choice id not present on the current node —
including any id on a node with no choices, such as a terminal node — the
handler returns normally without signaling any condition and mutates no
state: history, node sequence and index are untouched, and repeated invalid
calls are idempotent. -/
theorem C3_invalid_choice_silent_no_mutation :
    ∀ (s : EngineState) (c : Nat), validChoice s c = false →
      applyChoice s c = s ∧
      applyChoice (applyChoice s c) c = s ∧
      (applyChoice s c).gameState.gameHistory = s.gameState.gameHistory ∧
      (applyChoice s c).storyNodes = s.storyNodes ∧
      (applyChoice s c).currentNodeIndex = s.currentNodeIndex ∧
      applyChoiceE s c = Except.ok (applyChoice s c) := by
  intro s c h
  have h1 := applyChoice_not_valid s c h
  refine ⟨h1, ?_, by rw [h1], by rw [h1], by rw [h1], rfl⟩
  rw [h1, h1]

/-- C3 witness: choice id 999 is invalid on the fresh root node and leaves
the state unchanged. -/
theorem C3_invalid_choice_silent_no_mutation_witness :
    applyChoice (startGame demoProtagonist) 999 = startGame demoProtagonist :=
  (C3_invalid_choice_silent_no_mutation (startGame demoProtagonist) 999
    (by decide)).1

/-- C4: in every reachable session state the current index is a valid
position in the node sequence, and every valid `applyChoice` call strictly
increases the index, keeps it in range, and either leaves the node sequence
unchanged or appends the provider-created node at the end — with the new
index pointing exactly at that appended node. -/
theorem C4_valid_choice_advances_index :
    ∀ s : EngineState, Reachable s →
      s.currentNodeIndex < s.storyNodes.length ∧
      ∀ c : Nat, validChoice s c = true →
        s.currentNodeIndex < (applyChoice s c).currentNodeIndex ∧
        (applyChoice s c).currentNodeIndex
          < (applyChoice s c).storyNodes.length ∧
        ((applyChoice s c).storyNodes = s.storyNodes ∨
          ((applyChoice s c).storyNodes
              = s.storyNodes ++ [mkEndNode s.gameState.protagonist c] ∧
           (applyChoice s c).storyNodes.get? (applyChoice s c).currentNodeIndex
              = some (mkEndNode s.gameState.protagonist c))) := by
  intro s hs
  obtain ⟨hlen, hidx, hroot⟩ := reachable_sessionInv s hs
  refine ⟨hidx, ?_⟩
  intro c hv
  obtain ⟨cn, sc, hm, hf, hhist, hprot, hcase⟩ := applyChoice_valid_cases s c hv
  rcases hcase with ⟨hid, hnodes, hidx', hcur⟩ | ⟨hid, hnodes, hidx', hcur⟩
  · obtain ⟨hi0, hcs⟩ := hroot s.currentNodeIndex cn hm hid
    have hsc := List.find?_some hf
    have hsc_id : sc.id = c := of_decide_eq_true hsc
    have hc3 : c = 1 ∨ c = 2 ∨ c = 3 := by
      have := hcs sc (List.mem_of_find?_eq_some hf)
      omega
    refine ⟨?_, ?_, Or.inl hnodes⟩
    · rw [hidx', hi0]
      rcases hc3 with rfl | rfl | rfl <;> simp
    · rw [hidx', hnodes]
      rcases hc3 with rfl | rfl | rfl <;> simp <;> omega
  · refine ⟨?_, ?_, Or.inr ⟨hnodes, ?_⟩⟩
    · rw [hidx']
      exact hidx
    · rw [hidx', hnodes, List.length_append]
      simp
    · rw [hidx', hnodes]
      exact List.get?_concat_length s.storyNodes _

/-- C4 witness: from the fresh game the valid root choice 1 strictly
advances the index. -/
theorem C4_valid_choice_advances_index_witness :
    (startGame demoProtagonist).currentNodeIndex
      < (applyChoice (startGame demoProtagonist) 1).currentNodeIndex :=
  (((C4_valid_choice_advances_index (startGame demoProtagonist)
      (Reachable.start demoProtagonist)).2) 1 (by decide)).1

/-- C5: after a sequence of k valid `applyChoice` calls the history grows by
exactly k entries, every single call only ever appends to the history, and
the node sequence is append-only — any run of calls leaves the old sequence
as a prefix and the length never decreases. -/
theorem C5_history_length_and_append_only :
    (∀ (s : EngineState) (l : List Nat), allValid s l = true →
      (applyChoices s l).gameState.gameHistory.length
        = s.gameState.gameHistory.length + l.length) ∧
    (∀ (s : EngineState) (c : Nat), ∃ t,
      (applyChoice s c).gameState.gameHistory
        = s.gameState.gameHistory ++ t) ∧
    (∀ (s : EngineState) (l : List Nat), ∃ t,
      (applyChoices s l).storyNodes = s.storyNodes ++ t) ∧
    (∀ (s : EngineState) (c : Nat),
      s.storyNodes.length ≤ (applyChoice s c).storyNodes.length) := by
  refine ⟨?_, applyChoice_hist_append, ?_, ?_⟩
  · intro s l
    induction l generalizing s with
    | nil => intro _; rfl
    | cons c cs ih =>
        intro hall
        simp only [allValid, Bool.and_eq_true] at hall
        obtain ⟨hv, hrest⟩ := hall
        show (applyChoices (applyChoice s c) cs).gameState.gameHistory.length = _
        rw [ih (applyChoice s c) hrest, applyChoice_hist_len_valid s c hv,
          List.length_cons]
        omega
  · intro s l
    induction l generalizing s with
    | nil => exact ⟨[], by rw [List.append_nil]; rfl⟩
    | cons c cs ih =>
        obtain ⟨t1, ht1⟩ := applyChoice_nodes_append s c
        obtain ⟨t2, ht2⟩ := ih (applyChoice s c)
        exact ⟨t1 ++ t2, by
          show (applyChoices (applyChoice s c) cs).storyNodes = _
          rw [ht2, ht1, List.append_assoc]⟩
  · intro s c
    obtain ⟨t, ht⟩ := applyChoice_nodes_append s c
    rw [ht, List.length_append]
    exact Nat.le_add_right _ _

/-- C5 witness: the two valid choices 1 then 4 from the fresh game leave a
history of exactly two entries. -/
theorem C5_history_length_and_append_only_witness :
    (applyChoices (startGame demoProtagonist) [1, 4]).gameState.gameHistory.length
      = (startGame demoProtagonist).gameState.gameHistory.length + 2 :=
  C5_history_length_and_append_only.1 (startGame demoProtagonist) [1, 4]
    (by decide)

/-- C6: with an empty available-choice list no input emits a choice event —
both resolvers are total functions that return `none` — and any interaction
emits at most one event (the resolvers return at most one choice id). -/
theorem C6_empty_choices_no_event :
    ∀ (n : StoryNode) (offsetX velocityX : Int) (nodes : List StoryNode)
      (i : Nat) (key : String),
      (availableChoices n = [] →
        handleDragEnd n offsetX velocityX = none) ∧
      (nodes.get? i = some n → availableChoices n = [] →
        handleKeyPress nodes i key = none) ∧
      (handleDragEnd n offsetX velocityX = none ∨
        ∃ c, handleDragEnd n offsetX velocityX = some c) ∧
      (handleKeyPress nodes i key = none ∨
        ∃ c, handleKeyPress nodes i key = some c) := by
  intro n o v nodes i key
  refine ⟨?_, ?_, ?_, ?_⟩
  · intro hav
    unfold handleDragEnd
    cases classifySwipe o v with
    | none => rfl
    | some d =>
        cases d
        · rw [hav]
        · rw [find?_eq_head?_filter]
          show Option.map _ (availableChoices n).head? = none
          rw [hav]
          rfl
  · intro hget hav
    simp only [handleKeyPress, hget]
    cases hEnd : n.isEndNode with
    | true => simp
    | false => simp [hav]
  · cases h : handleDragEnd n o v with
    | none => exact Or.inl rfl
    | some c => exact Or.inr ⟨c, rfl⟩
  · cases h : handleKeyPress nodes i key with
    | none => exact Or.inl rfl
    | some c => exact Or.inr ⟨c, rfl⟩

/-- C6 witness: a hard right swipe on a non-terminal node with no choices
emits nothing. -/
theorem C6_empty_choices_no_event_witness :
    handleDragEnd noChoiceNode 150 0 = none :=
  (C6_empty_choices_no_event noChoiceNode 150 0 [] 0 "x").1 (by decide)

/-- C7: the lookahead window holds exactly `min 3 (remaining)` nodes and its
j-th entry is the node at position `index + j` of the sequence — no
placeholder padding ever appears. -/
theorem C7_lookahead_window :
    ∀ (nodes : List StoryNode) (i : Nat),
      (visibleNodes nodes i).length = min 3 (nodes.length - i) ∧
      ∀ j : Nat, (visibleNodes nodes i).get? j
        = if j < 3 then nodes.get? (i + j) else none := by
  intro nodes i
  constructor
  · simp [visibleNodes, List.length_take, List.length_drop]
  · intro j
    by_cases hj : j < 3
    · rw [visibleNodes, List.get?_take hj, List.get?_drop]
      simp [hj]
    · rw [if_neg hj]
      apply List.get?_len_le
      calc (visibleNodes nodes i).length ≤ 3 := by
            simp [visibleNodes, List.length_take]
        _ ≤ j := by omega

/-- C8 counterexample: on a node with four available choices the digit key 4
is a no-op — `handleKeyPress` only switches on the keys 1, 2 and 3 — although
the claim requires it to select the fourth available choice (id 4). -/
theorem C8_digit_four_counterexample :
    handleKeyPress [fourChoiceNode] 0 "4" = none ∧
    (availableChoices fourChoiceNode).length = 4 ∧
    ((availableChoices fourChoiceNode).get? 3).map (fun c => c.id)
      = some 4 := by
  decide

/-- C8 (amended): on a non-terminal node the digit keys 1, 2 and 3 select the
first, second and third available choice by position when it exists and are
no-ops otherwise, and every key outside the handled five — in particular any
digit key above 3, whatever the available count — is a no-op. -/
theorem C8_digit_key_selection :
    ∀ (nodes : List StoryNode) (i : Nat) (n : StoryNode),
      nodes.get? i = some n → n.isEndNode = false →
      (handleKeyPress nodes i "1"
          = ((availableChoices n).get? 0).map (fun c => c.id) ∧
       handleKeyPress nodes i "2"
          = ((availableChoices n).get? 1).map (fun c => c.id) ∧
       handleKeyPress nodes i "3"
          = ((availableChoices n).get? 2).map (fun c => c.id)) ∧
      (∀ key : String,
        key ∉ (["ArrowLeft", "ArrowRight", "1", "2", "3"] : List String) →
        handleKeyPress nodes i key = none) := by
  intro nodes i n hget hend
  have hget2 : nodes[i]? = some n := by
    rw [← List.get?_eq_getElem?]
    exact hget
  constructor
  · refine ⟨?_, ?_, ?_⟩ <;> simp [handleKeyPress, hget2, hend]
  · intro key hk
    simp only [List.mem_cons, List.not_mem_nil, or_false] at hk
    push_neg at hk
    obtain ⟨h1, h2, h3, h4, h5⟩ := hk
    simp [handleKeyPress, hget2, hend, h1, h2, h3, h4, h5]

/-- C8 witness: digit key 2 on the four-choice demo node selects the second
available choice, id 2. -/
theorem C8_digit_key_selection_witness :
    handleKeyPress [fourChoiceNode] 0 "2" = some 2 :=
  ((C8_digit_key_selection [fourChoiceNode] 0 fourChoiceNode
      (by decide) (by decide)).1.2.1).trans (by decide)

/-- C9: `resetGame` returns the initial state whatever the current state —
protagonist cleared, node sequence and history empty, index 0, with no
partial-reset path — and in particular after the two applied choices 1 and 4
the history is empty and the index is 0 again. -/
theorem C9_reset_clears_everything :
    ∀ s : EngineState,
      resetGame s = initialEngineState ∧
      (resetGame s).gameState.protagonist = none ∧
      (resetGame s).storyNodes = [] ∧
      (resetGame s).gameState.gameHistory = [] ∧
      (resetGame s).currentNodeIndex = 0 ∧
      (resetGame (applyChoices (startGame demoProtagonist) [1, 4])).gameState.gameHistory
        = [] ∧
      (resetGame (applyChoices (startGame demoProtagonist) [1, 4])).currentNodeIndex
        = 0 := by
  intro s
  exact ⟨rfl, rfl, rfl, rfl, rfl, rfl, rfl⟩

/-- C10: evaluation at the failing input. From the fresh game, choice 1 moves
to the `village_path` node; its valid choice 4 appends the terminal node
`end_4` and advances the index to it, yet the published
`gameState.currentNode` is `none` — `handleChoiceSelected` reads
`storyNodes[nextNodeIndex]` from the closure-captured array, which does not
yet contain the appended node — instead of the newly appended terminal node
stored at the new index. -/
theorem C10_currentNode_stale_on_append :
    validChoice (applyChoice (startGame demoProtagonist) 1) 4 = true ∧
    (applyChoices (startGame demoProtagonist) [1, 4]).gameState.currentNode
      = none ∧
    (applyChoices (startGame demoProtagonist) [1, 4]).storyNodes.get?
        (applyChoices (startGame demoProtagonist) [1, 4]).currentNodeIndex
      = some (mkEndNode (some demoProtagonist) 4) ∧
    (mkEndNode (some demoProtagonist) 4).isEndNode = true := by
  decide
